import Mathlib

/-!
Verification of the QR styling/export pipeline of the qr-code-art-generator
repository: URL normalisation (`isValidUrl`, `formatUrl`), the raster and
vector generation pipelines (`generateQRCode`, `generateQRCodeSVG`), the dot
styling engine (`applyDotStyle`), colour brightness adjustment
(`adjustColorBrightness`), PDF placement (`generatePDF`) and the download
orchestrator (`handleDownload`), shallowly embedded from src/lib/qr-generator.ts
and the QRGenerator component.
-/

namespace QrArt

/-! ## Character classes and trimming -/

/-- Whitespace for JavaScript `String.prototype.trim`: ASCII whitespace plus
the Unicode space separators, NBSP, BOM and the line separators. -/
def isJsWhitespace (c : Char) : Bool :=
  c.val == 9 || c.val == 10 || c.val == 11 || c.val == 12 || c.val == 13 ||
  c == ' ' || c.val == 0xa0 || c.val == 0xfeff || c.val == 0x1680 ||
  (decide (0x2000 ≤ c.val) && decide (c.val ≤ 0x200a)) ||
  c.val == 0x2028 || c.val == 0x2029 ||
  c.val == 0x202f || c.val == 0x205f || c.val == 0x3000

/-- Drop the characters satisfying `p` from both ends of a list. -/
def trimWhile (p : Char → Bool) (l : List Char) : List Char :=
  ((l.dropWhile p).reverse.dropWhile p).reverse

/-- JavaScript `text.trim()`. -/
def jsTrim (s : String) : String := String.mk (trimWhile isJsWhitespace s.data)

/-! ## Model of the browser URL constructor -/

/-- Scheme characters after the first, per the WHATWG URL grammar. -/
def isSchemeChar (c : Char) : Bool := c.isAlphanum || c == '+' || c == '-' || c == '.'

/-- Forbidden host/domain code points of the WHATWG URL standard (the ones a
host may not contain), plus the C0 controls and DEL. -/
def forbiddenHostChar (c : Char) : Bool :=
  c == ' ' || c == '#' || c == '/' || c == ':' || c == '<' || c == '>' ||
  c == '?' || c == '@' || c == '[' || c == '\\' || c == ']' || c == '^' ||
  c == '|' || c == '%' || decide (c.val < 32) || c.val == 127

/-- Split a list at the first occurrence of `sep`; `none` when absent. -/
def splitAtFirst (sep : Char) (l : List Char) : Option (List Char × List Char) :=
  match l.dropWhile (fun c => c != sep) with
  | [] => none
  | _ :: rest => some (l.takeWhile (fun c => c != sep), rest)

/-- The part of a list after the last occurrence of `sep` (the whole list
when `sep` is absent). -/
def afterLast (sep : Char) (l : List Char) : List Char :=
  (l.reverse.takeWhile (fun c => c != sep)).reverse

/-- Decimal value of a digit list. -/
def digitsVal (l : List Char) : Nat :=
  l.foldl (fun a c => a * 10 + (c.toNat - 48)) 0

/-- Port validity: all digits, and when non-empty its value is at most 65535. -/
def validPort (p : List Char) : Bool :=
  p.all Char.isDigit && (p.isEmpty || decide (digitsVal p ≤ 65535))

/-- Validity of the host-and-port part of an authority. -/
def validHostPort (hp : List Char) : Bool :=
  match splitAtFirst ':' hp with
  | none => !hp.isEmpty && !hp.any forbiddenHostChar
  | some (h, p) => !h.isEmpty && !h.any forbiddenHostChar && validPort p

/-- The special schemes of the WHATWG URL standard. -/
def specialScheme (s : List Char) : Bool :=
  let ls := s.map Char.toLower
  ls == "http".data || ls == "https".data || ls == "ws".data ||
  ls == "wss".data || ls == "ftp".data || ls == "file".data

/-- Input preprocessing of the WHATWG URL parser: strip leading and trailing
C0 controls and spaces, then remove every embedded tab and newline. -/
def urlPreprocess (l : List Char) : List Char :=
  (trimWhile (fun c => decide (c.val ≤ 32)) l).filter
    (fun c => !(c.val == 9 || c.val == 10 || c.val == 13))

/-- Modelled from the spec: success of the browser's `new URL(text)` (the
WHATWG URL constructor), the external platform primitive `isValidUrl` and
`formatUrl` call ("attempts to parse `text` as an absolute URL"). The model
covers the behaviour the repository's inputs exercise: input preprocessing,
scheme syntax, and for special schemes the authority with forbidden host code
points and the numeric port bound; it omits IPv4/IPv6 host forms, punycode
and percent-decoding. -/
def urlCanParseChars (l : List Char) : Bool :=
  match splitAtFirst ':' (urlPreprocess l) with
  | none => false
  | some (scheme, rest) =>
    match scheme with
    | [] => false
    | c :: cs =>
      c.isAlpha && cs.all isSchemeChar &&
      (if specialScheme scheme then
        (if scheme.map Char.toLower == "file".data then true
         else
           let afterSlashes := rest.dropWhile (fun c => c == '/' || c == '\\')
           let authority := afterSlashes.takeWhile
             (fun c => !(c == '/' || c == '\\' || c == '?' || c == '#'))
           validHostPort (afterLast '@' authority))
       else true)

/-- Modelled from the spec: `new URL(s)` succeeds (string form). -/
def urlCanParse (s : String) : Bool := urlCanParseChars s.data

/-! ## The validation regexes of `isValidUrl`

`/^[a-zA-Z0-9][a-zA-Z0-9-]{0,61}[a-zA-Z0-9]?\.[a-zA-Z]{2,}$/` and the same
with an optional `(\/.*)?` path suffix, translated as executable matchers:
anchored matching consumes the maximal run of label characters (the label
cannot contain the following literal dot, so no backtracking is possible). -/

/-- Characters of `[a-zA-Z0-9-]`. -/
def isLabelChar (c : Char) : Bool := c.isAlphanum || c == '-'

/-- What the JavaScript regex `.` matches (anything but a line terminator). -/
def isRegexDot (c : Char) : Bool :=
  !(c.val == 10 || c.val == 13 || c.val == 0x2028 || c.val == 0x2029)

/-- Acceptance of `[a-zA-Z0-9][a-zA-Z0-9-]{0,61}[a-zA-Z0-9]?` on the maximal
label-character run: first character alphanumeric and, beyond it, at most 61
characters, or exactly 62 with the last alphanumeric. -/
def labelOk (run : List Char) : Bool :=
  match run with
  | [] => false
  | c :: cs =>
    c.isAlphanum &&
    (decide (cs.length ≤ 61) ||
      (cs.length == 62 && (cs.getLast?.map Char.isAlphanum).getD false))

/-- Acceptance of `\.[a-zA-Z]{2,}` followed by the end (or, with `allowPath`,
by an optional `\/.*` suffix) on the rest of the subject. -/
def tldSuffixOk (allowPath : Bool) (rest : List Char) : Bool :=
  match rest with
  | [] => false
  | c :: rest2 =>
    c == '.' &&
    (decide (2 ≤ (rest2.takeWhile Char.isAlpha).length) &&
      (match rest2.dropWhile Char.isAlpha with
       | [] => true
       | c2 :: q => allowPath && c2 == '/' && q.all isRegexDot))

/-- The `domainPattern` regex test of `isValidUrl` (qr-generator.ts:98). -/
def domainPatternTest (l : List Char) : Bool :=
  labelOk (l.takeWhile isLabelChar) && tldSuffixOk false (l.dropWhile isLabelChar)

/-- The `urlPattern` regex test of `isValidUrl` (qr-generator.ts:99). -/
def urlPatternTest (l : List Char) : Bool :=
  labelOk (l.takeWhile isLabelChar) && tldSuffixOk true (l.dropWhile isLabelChar)

/-! ## URL normaliser (src/lib/qr-generator.ts) -/

/-- `isValidUrl` of src/lib/qr-generator.ts: false for empty or
whitespace-only text; true when the trimmed text parses as a URL; when only
`https://` + trimmed text parses, the result of the two regex tests. -/
def isValidUrl (text : String) : Bool :=
  if text == "" || jsTrim text == "" then false
  else
    let t := jsTrim text
    if urlCanParse t then true
    else if urlCanParse ("https://" ++ t) then
      domainPatternTest t.data || urlPatternTest t.data
    else false

/-- `formatUrl` of src/lib/qr-generator.ts: empty for empty input; otherwise
the trimmed text when it parses, else `https://` + trimmed text when that
parses, else the trimmed text. -/
def formatUrl (text : String) : String :=
  if text == "" then ""
  else
    let t := jsTrim text
    if urlCanParse t then t
    else if urlCanParse ("https://" ++ t) then "https://" ++ t
    else t

/-! ## Colour brightness adjustment (`adjustColorBrightness`) -/

/-- Value of a hexadecimal digit character, as `parseInt(_, 16)` reads one. -/
def hexVal (c : Char) : Option Nat :=
  if c.isDigit then some (c.toNat - 48)
  else if decide ('a' ≤ c) && decide (c ≤ 'f') then some (c.toNat - 87)
  else if decide ('A' ≤ c) && decide (c ≤ 'F') then some (c.toNat - 55)
  else none

/-- Character accepted by `parseInt(_, 16)` as a digit. -/
def isHexChar (c : Char) : Bool := (hexVal c).isSome

/-- Optional sign, as JavaScript `parseInt` reads it. -/
def stripSign : List Char → Bool × List Char
  | '+' :: r => (false, r)
  | '-' :: r => (true, r)
  | r => (false, r)

/-- Optional `0x`/`0X` mark, which `parseInt` accepts at radix 16. -/
def stripHexMark : List Char → List Char
  | '0' :: 'x' :: r => r
  | '0' :: 'X' :: r => r
  | r => r

/-- JavaScript `parseInt(s, 16)`: skip whitespace, optional sign, optional
`0x` mark, then the longest run of hexadecimal digits; `none` models `NaN`
(no digits at all). -/
def jsParseIntHex (l : List Char) : Option Int :=
  let signed := stripSign (l.dropWhile isJsWhitespace)
  let run := (stripHexMark signed.2).takeWhile isHexChar
  if run.isEmpty then none
  else
    let v : Nat := run.foldl (fun a c => a * 16 + (hexVal c).getD 0) 0
    some (if signed.1 then -(v : Int) else (v : Int))

/-- Removal of the first occurrence of a character, as
`color.replace('#', '')` does. -/
def removeFirst (sep : Char) : List Char → List Char
  | [] => []
  | c :: r => if c == sep then r else c :: removeFirst sep r

/-- `Math.max(0, Math.min(255, v))`, landing in `[0, 255]`. -/
def clampChannel (v : Int) : Nat := (max 0 (min 255 v)).toNat

/-- Lowercase hexadecimal digit for `n < 16`, as `Number.toString(16)` emits. -/
def hexDigitChar (n : Nat) : Char :=
  if n < 10 then Char.ofNat (48 + n) else Char.ofNat (87 + n)

/-- `n.toString(16).padStart(2, '0')` for a channel value `n ≤ 255`. -/
def hex2 (n : Nat) : List Char :=
  if n < 16 then ['0', hexDigitChar n]
  else [hexDigitChar (n / 16), hexDigitChar (n % 16)]

/-- One channel of `adjustColorBrightness`: `isNaN(parsed) ? 0 :
Math.max(0, Math.min(255, parsed + amount))`. -/
def channelValue (l : List Char) (amount : Int) : Nat :=
  match jsParseIntHex l with
  | none => 0
  | some v => clampChannel (v + amount)

/-- `adjustColorBrightness` of src/lib/qr-generator.ts: strip the first `#`,
read the three channels with `substr`/`parseInt(_, 16)`, clamp each parsed
channel after adding `amount` (an unparsable channel becomes 0), re-encode
as `#` plus six lowercase hexadecimal digits. -/
def adjustColorBrightness (color : String) (amount : Int) : String :=
  String.mk ('#' ::
    (hex2 (channelValue ((removeFirst '#' color.data).take 2) amount) ++
     hex2 (channelValue (((removeFirst '#' color.data).drop 2).take 2) amount) ++
     hex2 (channelValue (((removeFirst '#' color.data).drop 4).take 2) amount)))

/-- Lowercase hexadecimal digit character. -/
def isLowerHexDigit (c : Char) : Bool :=
  c.isDigit || (decide ('a' ≤ c) && decide (c ≤ 'f'))

/-! ## Generation pipelines (`generateQRCode`, `generateQRCodeSVG`)

The base symbol encoder (`QRCode.toDataURL` / `QRCode.toString`) is an
external library, passed as a function that may fail; the styling stages may
fail for reasons outside the embedding (canvas, image decoding), so they are
passed as possibly-failing functions too, and the embedding reproduces the
pipeline's control flow around them. -/

/-- `QRCodeConfig` of src/types.ts (`size` and `margin` with 0 standing for
a falsy value, `style` with `""` standing for an unset style). -/
structure QRCodeConfig where
  text : String
  size : Nat
  foregroundColor : String
  backgroundColor : String
  style : String
  margin : Nat
  foregroundImage : Option String := none

/-- Options handed to the external encoder. -/
structure QROptions where
  errorCorrectionLevel : String
  margin : Nat
  dark : String
  light : String
  width : Nat

/-- The options object built by `generateQRCode`/`generateQRCodeSVG`
(defaults applied with JavaScript `||`). -/
def mkOptions (config : QRCodeConfig) : QROptions :=
  { errorCorrectionLevel := "M"
  , margin := if config.margin == 0 then 2 else config.margin
  , dark := if config.foregroundColor == "" then "#000000" else config.foregroundColor
  , light := if config.backgroundColor == "" then "#ffffff" else config.backgroundColor
  , width := if config.size == 0 then 400 else config.size }

/-- The styling condition of both pipelines:
`(config.style && config.style !== 'square') || config.foregroundImage`. -/
def wantsArtisticEffects (config : QRCodeConfig) : Bool :=
  (config.style != "" && config.style != "square") || config.foregroundImage.isSome

/-- `generateQRCode` of src/lib/qr-generator.ts: reject empty text; encode the
base raster; when styling is requested, apply it under a local
`try`/`catch` that falls back to the base data URL; wrap an encoder failure
into the function's own error. -/
def generateQRCode
    (toDataURL : String → QROptions → Except String String)
    (applyArtisticEffects : String → String → QRCodeConfig → Except String String)
    (config : QRCodeConfig) : Except String String :=
  if config.text == "" then
    Except.error "Failed to generate QR code: Invalid text input for QR code generation"
  else
    match toDataURL config.text (mkOptions config) with
    | Except.error e => Except.error ("Failed to generate QR code: " ++ e)
    | Except.ok dataUrl =>
      if wantsArtisticEffects config then
        match applyArtisticEffects dataUrl config.style config with
        | Except.ok styled => Except.ok styled
        | Except.error _ => Except.ok dataUrl
      else Except.ok dataUrl

/-- `applySVGArtisticEffects` of src/lib/qr-generator.ts: its whole body sits
in a `try` whose `catch` returns the input SVG unchanged; the body (string
rewriting whose failure modes are outside the embedding) is the parameter. -/
def applySVGArtisticEffects
    (svgBody : String → String → QRCodeConfig → Except String String)
    (svgString style : String) (config : QRCodeConfig) : String :=
  match svgBody svgString style config with
  | Except.ok s => s
  | Except.error _ => svgString

/-- `generateQRCodeSVG` of src/lib/qr-generator.ts: reject empty text; encode
the base SVG; when styling is requested, rewrite it with
`applySVGArtisticEffects` (which cannot fail); wrap an encoder failure. -/
def generateQRCodeSVG
    (toSvgString : String → QROptions → Except String String)
    (svgBody : String → String → QRCodeConfig → Except String String)
    (config : QRCodeConfig) : Except String String :=
  if config.text == "" then
    Except.error "Failed to generate QR code SVG: Invalid text input for QR code SVG generation"
  else
    match toSvgString config.text (mkOptions config) with
    | Except.error e => Except.error ("Failed to generate QR code SVG: " ++ e)
    | Except.ok svgString =>
      Except.ok (if wantsArtisticEffects config then
        applySVGArtisticEffects svgBody svgString config.style config
      else svgString)

/-! ## Dot styling (`applyDotStyle`) -/

/-- A decoded raster: the RGBA byte array of `getImageData` as its length and
a byte lookup. -/
structure ImageData where
  len : Nat
  byteAt : Nat → Nat

/-- The indices visited by `for (i = 0; i < limit; i += spacing)`
(for `spacing ≥ 1`). -/
def forSteps (limit spacing : Nat) : List Nat :=
  (List.range ((limit + spacing - 1) / spacing)).map (· * spacing)

/-- `applyDotStyle` of src/lib/qr-generator.ts, observed through the cells it
draws: dot size `max 3 (width / 50)`, grid pitch twice that; each visited
cell samples the pixel at its own origin `(x, y)` (bounds-checked) and a
circle is drawn exactly when `(r + g + b) / 3 < 128`. The returned pairs are
the `(x, y)` loop origins of the drawn circles (each circle is centred at
`(x + dotSize/2, y + dotSize/2)` with radius `dotSize/2`). -/
def applyDotStyle (img : ImageData) (width height : Nat) : List (Nat × Nat) :=
  let dotSize := max 3 (width / 50)
  let spacing := dotSize * 2
  (forSteps width spacing).flatMap (fun x =>
    (forSteps height spacing).filterMap (fun y =>
      let pixelIndex := (y * width + x) * 4
      if pixelIndex + 2 < img.len then
        let r := img.byteAt pixelIndex
        let g := img.byteAt (pixelIndex + 1)
        let b := img.byteAt (pixelIndex + 2)
        if (r + g + b) / 3 < 128 then some (x, y) else none
      else none))

/-- Modelled from the claim's words, for comparison with `applyDotStyle`:
a module grid of size approximately `width / 50` (here `max 1 (width / 50)`),
sampling the centre pixel of each grid cell and keeping the cells whose
luminance `(r + g + b) / 3` is below 128. -/
def dotStyleCellsClaim (img : ImageData) (width height : Nat) : List (Nat × Nat) :=
  let m := max 1 (width / 50)
  (forSteps width m).flatMap (fun x =>
    (forSteps height m).filterMap (fun y =>
      let cx := x + m / 2
      let cy := y + m / 2
      let pixelIndex := (cy * width + cx) * 4
      if pixelIndex + 2 < img.len then
        let r := img.byteAt pixelIndex
        let g := img.byteAt (pixelIndex + 1)
        let b := img.byteAt (pixelIndex + 2)
        if (r + g + b) / 3 < 128 then some (x, y) else none
      else none))

/-- A 100 by 10 RGBA raster whose only dark pixel is at (0, 0). -/
def dotTestImage : ImageData :=
  { len := 4000, byteAt := fun i => if i < 3 then 0 else 255 }

/-! ## PDF placement (`generatePDF`) -/

/-- The placement `generatePDF` computes for the embedded image. -/
structure PdfPlacement where
  x : ℚ
  y : ℚ
  w : ℚ
  h : ℚ

/-- The placement arithmetic of `generatePDF` (src/lib/qr-generator.ts):
scale the image to the page width minus a 10-unit margin on each side,
preserving `imgWidth / imgHeight`; when the scaled height overflows the
page height minus margins, scale to that height instead; centre the result.
Page dimensions come from the external document library's page-size
introspection and are parameters. -/
def pdfPlacement (pageWidth pageHeight imgWidth imgHeight : ℚ) : PdfPlacement :=
  let imgAspect := imgWidth / imgHeight
  let maxWidth := pageWidth - 20
  let maxHeight := pageHeight - 20
  let w0 := maxWidth
  let h0 := maxWidth / imgAspect
  if h0 > maxHeight then
    { x := (pageWidth - maxHeight * imgAspect) / 2
    , y := (pageHeight - maxHeight) / 2
    , w := maxHeight * imgAspect
    , h := maxHeight }
  else
    { x := (pageWidth - w0) / 2
    , y := (pageHeight - h0) / 2
    , w := w0
    , h := h0 }

/-! ## Download orchestration (`handleDownload` of the QRGenerator component) -/

/-- The `colors_used` field of the history record. -/
structure ColorsUsed where
  foreground : String
  background : String
  deriving DecidableEq

/-- The record `handleDownload` hands to `saveQRHistory`. -/
structure QRHistoryRecord where
  url : String
  style_used : String
  colors_used : ColorsUsed
  export_format : String
  deriving DecidableEq

/-- The outcome of one `handleDownload` execution, as the component state and
collaborators observe it: the error state it leaves, the history record it
attempted to save (if it got that far), whether the download completed, and
whether a history failure was logged. -/
structure DownloadOutcome where
  errorState : Option String
  historyCall : Option QRHistoryRecord
  downloaded : Bool
  loggedHistoryWarning : Bool
  deriving DecidableEq

/-- `handleDownload` of the QRGenerator component: nothing happens without an
artifact; a download failure sets the error state; after a successful
download the history collaborator is notified with the export's URL, style,
colours and format, and a failure of that notification is only logged —
the error state stays unset and the download stands. -/
def handleDownload (qrDataUrl qrSvg : String) (config : QRCodeConfig)
    (format : String)
    (downloadResult : Except String Unit)
    (saveHistoryResult : Except String Unit) : DownloadOutcome :=
  if qrDataUrl == "" && qrSvg == "" then
    { errorState := none, historyCall := none, downloaded := false
      , loggedHistoryWarning := false }
  else
    match downloadResult with
    | Except.error e =>
      { errorState := some e, historyCall := none, downloaded := false
        , loggedHistoryWarning := false }
    | Except.ok _ =>
      { errorState := none
        , historyCall := some
          { url := config.text
            , style_used := config.style
            , colors_used :=
              { foreground := config.foregroundColor
                , background := config.backgroundColor }
            , export_format := format }
        , downloaded := true
        , loggedHistoryWarning :=
          match saveHistoryResult with
          | Except.error _ => true
          | Except.ok _ => false }

/-! ## Lemmas about trimming -/

theorem dropWhile_head_false {α} {p : α → Bool} :
    ∀ {l : List α} {c : α} {cs : List α}, l.dropWhile p = c :: cs → p c = false := by
  intro l
  induction l with
  | nil => intro c cs h; simp [List.dropWhile] at h
  | cons a as ih =>
    intro c cs h
    by_cases hp : p a
    · rw [List.dropWhile_cons_of_pos hp] at h
      exact ih h
    · rw [List.dropWhile_cons_of_neg hp] at h
      cases h
      simpa using hp

theorem dropWhile_head?_false {α} {p : α → Bool} {l : List α} {c : α}
    (h : (l.dropWhile p).head? = some c) : p c = false := by
  cases hd : l.dropWhile p with
  | nil => rw [hd] at h; simp at h
  | cons d ds =>
    rw [hd] at h
    simp only [List.head?_cons, Option.some.injEq] at h
    subst h
    exact dropWhile_head_false hd

theorem dropWhile_getLast? {α} {p : α → Bool} :
    ∀ {l : List α}, l.dropWhile p ≠ [] → (l.dropWhile p).getLast? = l.getLast? := by
  intro l
  induction l with
  | nil => intro h; simp [List.dropWhile] at h
  | cons a as ih =>
    intro h
    by_cases hp : p a
    · rw [List.dropWhile_cons_of_pos hp] at h ⊢
      rw [ih h]
      have has : as ≠ [] := by
        intro he
        rw [he] at h
        simp [List.dropWhile] at h
      cases as with
      | nil => exact absurd rfl has
      | cons b bs => simp
    · rw [List.dropWhile_cons_of_neg hp]

theorem trimWhile_head?_false {p : Char → Bool} {l : List Char} {c : Char}
    (h : (trimWhile p l).head? = some c) : p c = false := by
  unfold trimWhile at h
  rw [List.head?_reverse] at h
  have hne : ((l.dropWhile p).reverse).dropWhile p ≠ [] := by
    intro he
    rw [he] at h
    simp at h
  rw [dropWhile_getLast? hne, List.getLast?_reverse] at h
  exact dropWhile_head?_false h

theorem trimWhile_getLast?_false {p : Char → Bool} {l : List Char} {c : Char}
    (h : (trimWhile p l).getLast? = some c) : p c = false := by
  unfold trimWhile at h
  rw [List.getLast?_reverse] at h
  exact dropWhile_head?_false h

theorem trimWhile_of_ends {p : Char → Bool} {c : Char} {cs : List Char}
    (hc : p c = false) (hlast : ∀ d, (c :: cs).getLast? = some d → p d = false) :
    trimWhile p (c :: cs) = c :: cs := by
  unfold trimWhile
  rw [List.dropWhile_cons_of_neg (by simp [hc])]
  have hrev : (c :: cs).reverse.dropWhile p = (c :: cs).reverse := by
    cases hr : (c :: cs).reverse with
    | nil =>
      have := congrArg List.length hr
      simp at this
    | cons d ds =>
      have hd : p d = false := by
        apply hlast d
        rw [← List.head?_reverse, hr]
        rfl
      rw [List.dropWhile_cons_of_neg (by simp [hd])]
  rw [hrev, List.reverse_reverse]

theorem trimWhile_idem (p : Char → Bool) (l : List Char) :
    trimWhile p (trimWhile p l) = trimWhile p l := by
  cases ht : trimWhile p l with
  | nil => rfl
  | cons c cs =>
    apply trimWhile_of_ends
    · exact trimWhile_head?_false (by rw [ht]; rfl)
    · intro d hd
      exact trimWhile_getLast?_false (l := l) (by rw [ht]; exact hd)

theorem jsTrim_idem (s : String) : jsTrim (jsTrim s) = jsTrim s :=
  congrArg String.mk (trimWhile_idem isJsWhitespace s.data)

theorem https_append_mk (t : List Char) :
    ("https://" ++ String.mk t)
      = String.mk ('h' :: 't' :: 't' :: 'p' :: 's' :: ':' :: '/' :: '/' :: t) := by
  apply congrArg String.mk
  simp

theorem jsTrim_https_fix (s : String) :
    jsTrim ("https://" ++ jsTrim s) = "https://" ++ jsTrim s := by
  rw [show jsTrim s = String.mk (trimWhile isJsWhitespace s.data) from rfl,
     https_append_mk]
  show String.mk (trimWhile isJsWhitespace
      ('h' :: 't' :: 't' :: 'p' :: 's' :: ':' :: '/' :: '/' :: trimWhile isJsWhitespace s.data)) = _
  apply congrArg String.mk
  apply trimWhile_of_ends
  · decide
  · intro d hd
    rw [show ('h' :: 't' :: 't' :: 'p' :: 's' :: ':' :: '/' :: '/' :: trimWhile isJsWhitespace s.data)
          = ['h', 't', 't', 'p', 's', ':', '/', '/'] ++ trimWhile isJsWhitespace s.data from by simp,
       List.getLast?_append] at hd
    cases he : (trimWhile isJsWhitespace s.data).getLast? with
    | some e =>
      rw [he] at hd
      simp only [Option.or_some, Option.some.injEq] at hd
      subst hd
      exact trimWhile_getLast?_false he
    | none =>
      rw [he] at hd
      simp only [Option.none_or] at hd
      rw [show (['h', 't', 't', 'p', 's', ':', '/', '/'] : List Char).getLast? = some '/' from rfl] at hd
      injection hd with hd
      subst hd
      decide

theorem https_append_ne_empty (t : String) : ("https://" ++ t) ≠ "" := by
  intro h
  have hlen := congrArg String.length h
  rw [String.length_append] at hlen
  rw [show ("https://" : String).length = 8 from rfl,
     show ("" : String).length = 0 from rfl] at hlen
  omega

/-! ## Lemmas about the hexadecimal helpers -/

theorem hex2_pair (n : Nat) : ∃ a b, hex2 n = [a, b] := by
  unfold hex2
  split
  · exact ⟨_, _, rfl⟩
  · exact ⟨_, _, rfl⟩

theorem hex2_length (n : Nat) : (hex2 n).length = 2 := by
  obtain ⟨a, b, h⟩ := hex2_pair n
  rw [h]
  rfl

set_option maxRecDepth 4096 in
theorem jsParseIntHex_hex2 : ∀ n < 256, jsParseIntHex (hex2 n) = some (n : Int) := by
  decide

theorem channelValue_hex2 {n : Nat} (hn : n < 256) (amount : Int) :
    channelValue (hex2 n) amount = clampChannel (n + amount) := by
  unfold channelValue
  rw [jsParseIntHex_hex2 n hn]

theorem clampChannel_le (v : Int) : clampChannel v ≤ 255 := by
  unfold clampChannel
  omega

theorem channelValue_le (l : List Char) (amount : Int) : channelValue l amount ≤ 255 := by
  unfold channelValue
  cases jsParseIntHex l with
  | none => exact Nat.zero_le _
  | some v => exact clampChannel_le _

theorem hexDigitChar_lower : ∀ m < 16, isLowerHexDigit (hexDigitChar m) = true := by
  decide

theorem hex2_all_lower {n : Nat} (hn : n ≤ 255) :
    (hex2 n).all isLowerHexDigit = true := by
  unfold hex2
  split
  · rename_i h16
    simp only [List.all_cons, List.all_nil, Bool.and_true]
    rw [hexDigitChar_lower n h16]
    decide
  · have h1 : n / 16 < 16 := by omega
    have h2 : n % 16 < 16 := Nat.mod_lt _ (by norm_num)
    simp only [List.all_cons, List.all_nil, Bool.and_true]
    rw [hexDigitChar_lower _ h1, hexDigitChar_lower _ h2]
    rfl

/-- C7: adjustColorBrightness parses the R, G, B channels of a hex colour,
clamps each to [0, 255] after adding the delta, and re-encodes as hex; on a
well-formed six-digit colour every channel round-trips, and the concrete
values hold: `#808080` at delta 0 is unchanged and `#000000` at delta 300
clamps to `#ffffff`. -/
theorem C7_adjustColorBrightness_clamp_spec :
    (∀ (r g b : Nat) (amount : Int), r < 256 → g < 256 → b < 256 →
      adjustColorBrightness (String.mk ('#' :: (hex2 r ++ hex2 g ++ hex2 b))) amount
        = String.mk ('#' :: (hex2 (clampChannel (r + amount)) ++
            hex2 (clampChannel (g + amount)) ++ hex2 (clampChannel (b + amount))))) ∧
    adjustColorBrightness "#808080" 0 = "#808080" ∧
    adjustColorBrightness "#000000" 300 = "#ffffff" := by
  refine ⟨?_, by decide, by decide⟩
  intro r g b amount hr hg hb
  obtain ⟨r1, r2, hrp⟩ := hex2_pair r
  obtain ⟨g1, g2, hgp⟩ := hex2_pair g
  obtain ⟨b1, b2, hbp⟩ := hex2_pair b
  unfold adjustColorBrightness
  rw [show (String.mk ('#' :: (hex2 r ++ hex2 g ++ hex2 b))).data
        = '#' :: (hex2 r ++ hex2 g ++ hex2 b) from rfl]
  rw [show removeFirst '#' ('#' :: (hex2 r ++ hex2 g ++ hex2 b))
        = hex2 r ++ hex2 g ++ hex2 b by simp [removeFirst]]
  rw [hrp, hgp, hbp]
  rw [show (([r1, r2] ++ [g1, g2] ++ [b1, b2] : List Char)).take 2 = [r1, r2] from rfl]
  rw [show ((([r1, r2] ++ [g1, g2] ++ [b1, b2] : List Char)).drop 2).take 2 = [g1, g2] from rfl]
  rw [show ((([r1, r2] ++ [g1, g2] ++ [b1, b2] : List Char)).drop 4).take 2 = [b1, b2] from rfl]
  rw [← hrp, ← hgp, ← hbp]
  rw [channelValue_hex2 hr, channelValue_hex2 hg, channelValue_hex2 hb]

/-- C10: adjustColorBrightness is total and well-formed on every input —
the result is `#` followed by the six lowercase hexadecimal digits of three
channel values, each in [0, 255]. -/
theorem C10_adjustColorBrightness_wellformed :
    ∀ (color : String) (amount : Int), ∃ r g b : Nat,
      r ≤ 255 ∧ g ≤ 255 ∧ b ≤ 255 ∧
      adjustColorBrightness color amount = String.mk ('#' :: (hex2 r ++ hex2 g ++ hex2 b)) ∧
      (adjustColorBrightness color amount).length = 7 ∧
      (adjustColorBrightness color amount).data.head? = some '#' ∧
      ((adjustColorBrightness color amount).data.drop 1).all isLowerHexDigit = true := by
  intro color amount
  refine ⟨channelValue ((removeFirst '#' color.data).take 2) amount,
    channelValue (((removeFirst '#' color.data).drop 2).take 2) amount,
    channelValue (((removeFirst '#' color.data).drop 4).take 2) amount,
    channelValue_le _ _, channelValue_le _ _, channelValue_le _ _, rfl, ?_, rfl, ?_⟩
  · show ('#' :: (hex2 _ ++ hex2 _ ++ hex2 _)).length = 7
    simp [List.length_append, hex2_length]
  · show ((('#' :: (hex2 _ ++ hex2 _ ++ hex2 _)) : List Char).drop 1).all isLowerHexDigit = true
    simp only [List.drop_succ_cons, List.drop_zero, List.all_append, Bool.and_eq_true]
    exact ⟨⟨hex2_all_lower (channelValue_le _ _), hex2_all_lower (channelValue_le _ _)⟩,
      hex2_all_lower (channelValue_le _ _)⟩

/-- C5: with style `square` and no pattern image, raster styling is a no-op —
`generateQRCode` returns exactly the base raster artifact the encoder
produced, whatever the styling function would have done. -/
theorem C5_square_style_identity
    (toDataURL : String → QROptions → Except String String)
    (applyFx : String → String → QRCodeConfig → Except String String)
    (config : QRCodeConfig) (d : String)
    (hstyle : config.style = "square") (himg : config.foregroundImage = none)
    (htext : config.text ≠ "")
    (henc : toDataURL config.text (mkOptions config) = Except.ok d) :
    generateQRCode toDataURL applyFx config = Except.ok d := by
  have ht : (config.text == "") = false := by simp [htext]
  have hw : wantsArtisticEffects config = false := by
    unfold wantsArtisticEffects
    rw [hstyle, himg]
    rfl
  simp [generateQRCode, ht, henc, hw]

/-- Witness for C5 at a concrete square configuration: the encoder's output
passes through unchanged even though the styling function would restyle. -/
theorem C5_square_style_identity_witness :
    generateQRCode (fun _ _ => Except.ok "base-data-url")
      (fun _ _ _ => Except.ok "styled-data-url")
      { text := "https://example.com", size := 400, foregroundColor := "#000000"
        , backgroundColor := "#ffffff", style := "square", margin := 2
        , foregroundImage := none }
      = Except.ok "base-data-url" :=
  C5_square_style_identity _ _ _ _ rfl rfl (by decide) rfl

/-- C1: for valid (non-empty) text, a failure of the raster or vector styling
stage never propagates out of `generateQRCode`/`generateQRCodeSVG` — both
succeed whenever the base encoder succeeds, falling back to the unstyled base
artifact when the styling body fails; conversely both reject when the text is
empty. -/
theorem C1_styling_failure_never_propagates :
    ∀ (toDataURL toSvgString : String → QROptions → Except String String)
      (rasterBody svgBody : String → String → QRCodeConfig → Except String String)
      (config : QRCodeConfig),
      (config.text = "" →
        (∃ e, generateQRCode toDataURL rasterBody config = Except.error e) ∧
        (∃ e, generateQRCodeSVG toSvgString svgBody config = Except.error e)) ∧
      (∀ d, config.text ≠ "" → toDataURL config.text (mkOptions config) = Except.ok d →
        (∃ out, generateQRCode toDataURL rasterBody config = Except.ok out) ∧
        ((∃ e, rasterBody d config.style config = Except.error e) →
          generateQRCode toDataURL rasterBody config = Except.ok d)) ∧
      (∀ v, config.text ≠ "" → toSvgString config.text (mkOptions config) = Except.ok v →
        (∃ out, generateQRCodeSVG toSvgString svgBody config = Except.ok out) ∧
        ((∃ e, svgBody v config.style config = Except.error e) →
          generateQRCodeSVG toSvgString svgBody config = Except.ok v)) := by
  intro tD tS rB sB config
  refine ⟨?_, ?_, ?_⟩
  · intro h
    refine ⟨⟨"Failed to generate QR code: Invalid text input for QR code generation", ?_⟩,
      ⟨"Failed to generate QR code SVG: Invalid text input for QR code SVG generation", ?_⟩⟩
    · simp [generateQRCode, h]
    · simp [generateQRCodeSVG, h]
  · intro d hne henc
    have ht : (config.text == "") = false := by simp [hne]
    constructor
    · by_cases hw : wantsArtisticEffects config = true
      · cases hr : rB d config.style config with
        | ok s => exact ⟨s, by simp [generateQRCode, ht, henc, hw, hr]⟩
        | error e => exact ⟨d, by simp [generateQRCode, ht, henc, hw, hr]⟩
      · have hw' : wantsArtisticEffects config = false := by simpa using hw
        exact ⟨d, by simp [generateQRCode, ht, henc, hw']⟩
    · rintro ⟨e, he⟩
      by_cases hw : wantsArtisticEffects config = true
      · simp [generateQRCode, ht, henc, hw, he]
      · have hw' : wantsArtisticEffects config = false := by simpa using hw
        simp [generateQRCode, ht, henc, hw']
  · intro v hne henc
    have ht : (config.text == "") = false := by simp [hne]
    constructor
    · by_cases hw : wantsArtisticEffects config = true
      · exact ⟨applySVGArtisticEffects sB v config.style config,
          by simp [generateQRCodeSVG, ht, henc, hw]⟩
      · have hw' : wantsArtisticEffects config = false := by simpa using hw
        exact ⟨v, by simp [generateQRCodeSVG, ht, henc, hw']⟩
    · rintro ⟨e, he⟩
      by_cases hw : wantsArtisticEffects config = true
      · simp [generateQRCodeSVG, ht, henc, hw, applySVGArtisticEffects, he]
      · have hw' : wantsArtisticEffects config = false := by simpa using hw
        simp [generateQRCodeSVG, ht, henc, hw']

/-- C9: after a successful export, the history collaborator is notified with
the export's URL, style, colours and format; when that notification fails the
failure is only logged — the error state stays unset and the download is
still reported as done. -/
theorem C9_history_failure_swallowed
    (qrDataUrl qrSvg : String) (config : QRCodeConfig) (format e : String)
    (h : ¬(qrDataUrl = "" ∧ qrSvg = "")) :
    handleDownload qrDataUrl qrSvg config format (Except.ok ()) (Except.error e) =
      { errorState := none
      , historyCall := some
          { url := config.text, style_used := config.style
            , colors_used :=
              { foreground := config.foregroundColor
                , background := config.backgroundColor }
            , export_format := format }
      , downloaded := true
      , loggedHistoryWarning := true } := by
  have hcond : (qrDataUrl == "" && qrSvg == "") = false := by
    cases h1 : (qrDataUrl == "") <;> cases h2 : (qrSvg == "") <;> simp_all
  simp [handleDownload, hcond]

/-- Witness for C9 at a concrete execution whose history notification fails. -/
theorem C9_history_failure_swallowed_witness :
    handleDownload "data:image/png;base64,qr" ""
      { text := "https://example.com", size := 400, foregroundColor := "#000000"
        , backgroundColor := "#ffffff", style := "rounded", margin := 2
        , foregroundImage := none }
      "png" (Except.ok ()) (Except.error "cosmic unavailable") =
      { errorState := none
      , historyCall := some
          { url := "https://example.com", style_used := "rounded"
            , colors_used := { foreground := "#000000", background := "#ffffff" }
            , export_format := "png" }
      , downloaded := true
      , loggedHistoryWarning := true } :=
  C9_history_failure_swallowed _ _ _ _ _ (by decide)

/-- C8: the PDF placement preserves the image's aspect ratio exactly, fits
inside the page minus the fixed 10-unit margins, and is centred on the page
(both the width and the height relations hold with positive placed sizes). -/
theorem C8_pdf_placement (pw ph w h : ℚ)
    (hw : 0 < w) (hh : 0 < h) (hpw : 20 < pw) (hph : 20 < ph) :
    (pdfPlacement pw ph w h).w * h = (pdfPlacement pw ph w h).h * w ∧
    0 < (pdfPlacement pw ph w h).w ∧ 0 < (pdfPlacement pw ph w h).h ∧
    (pdfPlacement pw ph w h).w ≤ pw - 20 ∧ (pdfPlacement pw ph w h).h ≤ ph - 20 ∧
    10 ≤ (pdfPlacement pw ph w h).x ∧ 10 ≤ (pdfPlacement pw ph w h).y ∧
    2 * (pdfPlacement pw ph w h).x + (pdfPlacement pw ph w h).w = pw ∧
    2 * (pdfPlacement pw ph w h).y + (pdfPlacement pw ph w h).h = ph ∧
    (pdfPlacement pw ph w h).w / (pdfPlacement pw ph w h).h = w / h := by
  have ha : 0 < w / h := div_pos hw hh
  have hh0 : h ≠ 0 := ne_of_gt hh
  have hw0 : w ≠ 0 := ne_of_gt hw
  have ha0 : w / h ≠ 0 := ne_of_gt ha
  unfold pdfPlacement
  dsimp only
  split_ifs with hcase
  · -- height-constrained branch
    have hph' : (0 : ℚ) < ph - 20 := by linarith
    have hwle : (ph - 20) * (w / h) < pw - 20 := (lt_div_iff₀ ha).mp hcase
    refine ⟨?_, mul_pos hph' ha, hph', le_of_lt hwle, le_refl _, ?_, ?_, by ring, by ring, ?_⟩
    · calc (ph - 20) * (w / h) * h = (ph - 20) * (w / h * h) := by ring
        _ = (ph - 20) * w := by rw [div_mul_cancel₀ _ hh0]
    · linarith
    · linarith
    · rw [mul_comm, mul_div_assoc, div_self (ne_of_gt hph'), mul_one]
  · -- width-constrained branch
    have hpw' : (0 : ℚ) < pw - 20 := by linarith
    have hfit : (pw - 20) / (w / h) ≤ ph - 20 := not_lt.mp hcase
    refine ⟨?_, hpw', div_pos hpw' ha, le_refl _, hfit, ?_, ?_, by ring, by ring, ?_⟩
    · rw [div_div_eq_mul_div, div_mul_cancel₀ _ hw0]
    · linarith
    · linarith
    · rw [div_eq_div_iff (ne_of_gt (div_pos hpw' ha)) hh0, div_div_eq_mul_div]
      rw [mul_comm w _, div_mul_cancel₀ _ hw0]

/-- Witness for C8 at a square 400 by 400 raster on a 210 by 297 page. -/
theorem C8_pdf_placement_witness :
    (pdfPlacement 210 297 400 400).w * 400 = (pdfPlacement 210 297 400 400).h * 400 ∧
    0 < (pdfPlacement 210 297 400 400).w ∧ 0 < (pdfPlacement 210 297 400 400).h ∧
    (pdfPlacement 210 297 400 400).w ≤ 210 - 20 ∧
    (pdfPlacement 210 297 400 400).h ≤ 297 - 20 ∧
    10 ≤ (pdfPlacement 210 297 400 400).x ∧ 10 ≤ (pdfPlacement 210 297 400 400).y ∧
    2 * (pdfPlacement 210 297 400 400).x + (pdfPlacement 210 297 400 400).w = 210 ∧
    2 * (pdfPlacement 210 297 400 400).y + (pdfPlacement 210 297 400 400).h = 297 ∧
    (pdfPlacement 210 297 400 400).w / (pdfPlacement 210 297 400 400).h
      = (400 : ℚ) / 400 :=
  C8_pdf_placement 210 297 400 400 (by norm_num) (by norm_num) (by norm_num) (by norm_num)

/-- C6 (amended): `formatUrl` always works on the trimmed text — it returns
the trimmed text when that parses as a URL, `https://` plus the trimmed text
when only that parses, and the trimmed text otherwise; the concrete values
hold. -/
theorem C6_formatUrl_trimmed_spec :
    (∀ text : String, urlCanParse (jsTrim text) = true → formatUrl text = jsTrim text) ∧
    (∀ text : String, urlCanParse (jsTrim text) = false →
      urlCanParse ("https://" ++ jsTrim text) = true →
      formatUrl text = "https://" ++ jsTrim text) ∧
    (∀ text : String, urlCanParse (jsTrim text) = false →
      urlCanParse ("https://" ++ jsTrim text) = false →
      formatUrl text = jsTrim text) ∧
    formatUrl "example.com" = "https://example.com" ∧
    formatUrl "https://example.com" = "https://example.com" := by
  refine ⟨?_, ?_, ?_, by decide, by decide⟩
  · intro text hp
    by_cases h0 : text = ""
    · subst h0
      decide
    · have h0' : (text == "") = false := by simp [h0]
      simp [formatUrl, h0', hp]
  · intro text hp hps
    by_cases h0 : text = ""
    · subst h0
      exact absurd hps (by decide)
    · have h0' : (text == "") = false := by simp [h0]
      simp [formatUrl, h0', hp, hps]
  · intro text hp hps
    by_cases h0 : text = ""
    · subst h0
      decide
    · have h0' : (text == "") = false := by simp [h0]
      simp [formatUrl, h0', hp, hps]

/-- Counterexample to C6 as stated: `"https://example.com "` (trailing space)
parses as an absolute URL, yet `formatUrl` does not return it unchanged — it
returns the trimmed text. -/
theorem C6_formatUrl_counterexample :
    urlCanParse "https://example.com " = true ∧
    formatUrl "https://example.com " ≠ "https://example.com " ∧
    formatUrl "https://example.com " = "https://example.com" := by
  refine ⟨by decide, by decide, by decide⟩

/-- C2 (amended): validation is monotone under normalisation — for non-empty
text, whenever `isValidUrl` accepts the text it also accepts
`formatUrl text`. (The converse direction of the claimed equality fails, see
the counterexample.) -/
theorem C2_validation_after_format (text : String) (h0 : text ≠ "")
    (h : isValidUrl text = true) : isValidUrl (formatUrl text) = true := by
  have h0' : (text == "") = false := by simp [h0]
  by_cases hemp : jsTrim text = ""
  · exfalso
    rw [isValidUrl] at h
    rw [hemp] at h
    simp at h
  · have hemp' : (jsTrim text == "") = false := by simp [hemp]
    by_cases hp : urlCanParse (jsTrim text) = true
    · have hf : formatUrl text = jsTrim text := by
        simp [formatUrl, h0', hp]
      rw [hf]
      simp [isValidUrl, jsTrim_idem, hemp, hp]
    · have hp' : urlCanParse (jsTrim text) = false := by simpa using hp
      by_cases hps : urlCanParse ("https://" ++ jsTrim text) = true
      · have hf : formatUrl text = "https://" ++ jsTrim text := by
          simp [formatUrl, h0', hp', hps]
        rw [hf]
        have hfix := jsTrim_https_fix text
        have hne2 := https_append_ne_empty (jsTrim text)
        simp [isValidUrl, hfix, hne2, hps]
      · exfalso
        have hps' : urlCanParse ("https://" ++ jsTrim text) = false := by simpa using hps
        rw [isValidUrl] at h
        simp [h0', hemp, hp', hps'] at h

/-- Witness for C2 at the concrete input `"google.com"`. -/
theorem C2_validation_after_format_witness :
    isValidUrl (formatUrl "google.com") = true :=
  C2_validation_after_format "google.com" (by decide) (by decide)

/-- Counterexample to C2 as stated: for the non-empty text `"localhost"`,
`isValidUrl` rejects the text itself but accepts its normalisation, so the
claimed equality fails. -/
theorem C2_validation_after_format_counterexample :
    ("localhost" : String) ≠ "" ∧
    isValidUrl "localhost" = false ∧
    isValidUrl (formatUrl "localhost") = true ∧
    isValidUrl "localhost" ≠ isValidUrl (formatUrl "localhost") := by
  refine ⟨by decide, by decide, by decide, by decide⟩

theorem mem_forSteps {limit s : Nat} (hs : 0 < s) {x : Nat} :
    x ∈ forSteps limit s ↔ x % s = 0 ∧ x < limit := by
  unfold forSteps
  simp only [List.mem_map, List.mem_range]
  constructor
  · rintro ⟨k, hk, rfl⟩
    refine ⟨Nat.mul_mod_left k s, ?_⟩
    have h1 : k + 1 ≤ (limit + s - 1) / s := hk
    have h2 : (k + 1) * s ≤ limit + s - 1 := by
      calc (k + 1) * s ≤ ((limit + s - 1) / s) * s := Nat.mul_le_mul_right s h1
        _ ≤ limit + s - 1 := Nat.div_mul_le_self _ _
    have h3 : k * s + s = (k + 1) * s := by ring
    omega
  · rintro ⟨hmod, hlt⟩
    have hx : x / s * s = x := Nat.div_mul_cancel (Nat.dvd_of_mod_eq_zero hmod)
    refine ⟨x / s, ?_, hx⟩
    have h2 : (x / s + 1) * s ≤ limit + s - 1 := by
      have h3 : x / s * s + s = (x / s + 1) * s := by ring
      omega
    have := (Nat.le_div_iff_mul_le hs).mpr h2
    omega

/-- C4 (amended): the dots engine draws its circles on a grid of pitch
twice the dot diameter `max 3 (width / 50)`, and a visited cell receives a
circle exactly when the pixel at the cell's own origin (top-left corner, not
its centre) is in bounds and has luminance `(r + g + b) / 3` below 128. -/
theorem C4_dot_cells_spec :
    ∀ (img : ImageData) (width height x y : Nat),
      (x, y) ∈ applyDotStyle img width height ↔
        (x % (max 3 (width / 50) * 2) = 0 ∧ y % (max 3 (width / 50) * 2) = 0 ∧
         x < width ∧ y < height ∧
         (y * width + x) * 4 + 2 < img.len ∧
         (img.byteAt ((y * width + x) * 4) + img.byteAt ((y * width + x) * 4 + 1) +
           img.byteAt ((y * width + x) * 4 + 2)) / 3 < 128) := by
  intro img width height x y
  have hs : 0 < max 3 (width / 50) * 2 := by
    have h3 : 3 ≤ max 3 (width / 50) := le_max_left _ _
    omega
  unfold applyDotStyle
  dsimp only
  rw [List.mem_flatMap]
  constructor
  · rintro ⟨x', hx', hy⟩
    rw [List.mem_filterMap] at hy
    obtain ⟨y', hy', hf⟩ := hy
    rw [mem_forSteps hs] at hx' hy'
    split_ifs at hf with h1 h2
    · injection hf with hf
      cases hf
      exact ⟨hx'.1, hy'.1, hx'.2, hy'.2, h1, h2⟩
  · rintro ⟨hx, hy, hxw, hyh, hlen, hlum⟩
    refine ⟨x, (mem_forSteps hs).mpr ⟨hx, hxw⟩, ?_⟩
    rw [List.mem_filterMap]
    exact ⟨y, (mem_forSteps hs).mpr ⟨hy, hyh⟩, by rw [if_pos hlen, if_pos hlum]⟩

/-- Counterexample to C4 as stated: on a 100-wide raster dark only at its
(0, 0) corner pixel, the engine draws a dot in the first cell (it samples
cell origins on a pitch-6 grid), while the claimed behaviour — a grid of
module size `width / 50 = 2` sampling each cell's centre pixel — draws
nothing at all. -/
theorem C4_dot_cells_counterexample :
    applyDotStyle dotTestImage 100 10 = [(0, 0)] ∧
    dotStyleCellsClaim dotTestImage 100 10 = [] ∧
    applyDotStyle dotTestImage 100 10 ≠ dotStyleCellsClaim dotTestImage 100 10 := by
  refine ⟨by decide, by decide, by decide⟩

theorem isLabelChar_of_isAlphanum {c : Char} (h : c.isAlphanum = true) :
    isLabelChar c = true := by
  unfold isLabelChar
  rw [h]
  rfl

theorem patternOr_iff (l : List Char) :
    (domainPatternTest l || urlPatternTest l) = true ↔
    ∃ label tld path : List Char,
      l = label ++ '.' :: (tld ++ path) ∧
      (∃ c cs, label = c :: cs ∧ c.isAlphanum = true ∧ cs.all isLabelChar = true ∧
        (cs.length ≤ 61 ∨ (cs.length = 62 ∧
          ∃ d, cs.getLast? = some d ∧ d.isAlphanum = true))) ∧
      2 ≤ tld.length ∧ tld.all Char.isAlpha = true ∧
      (path = [] ∨ ∃ q, path = '/' :: q ∧ q.all isRegexDot = true) := by
  constructor
  · intro h
    have hurl : urlPatternTest l = true := by
      rcases Bool.or_eq_true_iff.mp h with hd | hu
      · unfold domainPatternTest at hd
        unfold urlPatternTest
        rw [Bool.and_eq_true] at hd ⊢
        refine ⟨hd.1, ?_⟩
        have h2 := hd.2
        cases hr : l.dropWhile isLabelChar with
        | nil =>
          rw [hr] at h2
          exact absurd h2 (by simp [tldSuffixOk])
        | cons c rest2 =>
          rw [hr] at h2
          simp only [tldSuffixOk] at h2 ⊢
          rw [Bool.and_eq_true] at h2 ⊢
          refine ⟨h2.1, ?_⟩
          have h3 := h2.2
          rw [Bool.and_eq_true] at h3 ⊢
          refine ⟨h3.1, ?_⟩
          have h4 := h3.2
          cases hr3 : rest2.dropWhile Char.isAlpha with
          | nil =>
            rfl
          | cons c2 q =>
            rw [hr3] at h4
            simp at h4
      · exact hu
    clear h
    unfold urlPatternTest at hurl
    rw [Bool.and_eq_true] at hurl
    obtain ⟨hlab, hsuf⟩ := hurl
    cases hrun : l.takeWhile isLabelChar with
    | nil =>
      rw [hrun] at hlab
      exact absurd hlab (by simp [labelOk])
    | cons c cs =>
      rw [hrun] at hlab
      cases hrest : l.dropWhile isLabelChar with
      | nil =>
        rw [hrest] at hsuf
        exact absurd hsuf (by simp [tldSuffixOk])
      | cons c0 rest2 =>
        rw [hrest] at hsuf
        simp only [tldSuffixOk] at hsuf
        rw [Bool.and_eq_true] at hsuf
        obtain ⟨hdot, hsuf2⟩ := hsuf
        have hc0 : c0 = '.' := by simpa using hdot
        subst hc0
        rw [Bool.and_eq_true] at hsuf2
        obtain ⟨hlen2, hmatch⟩ := hsuf2
        refine ⟨c :: cs, rest2.takeWhile Char.isAlpha, rest2.dropWhile Char.isAlpha,
          ?_, ?_, ?_, ?_, ?_⟩
        · calc l = l.takeWhile isLabelChar ++ l.dropWhile isLabelChar :=
              (List.takeWhile_append_dropWhile _ _).symm
            _ = (c :: cs) ++ '.' :: rest2 := by rw [hrun, hrest]
            _ = (c :: cs) ++ '.' ::
                (rest2.takeWhile Char.isAlpha ++ rest2.dropWhile Char.isAlpha) := by
              rw [List.takeWhile_append_dropWhile]
        · simp only [labelOk] at hlab
          rw [Bool.and_eq_true] at hlab
          refine ⟨c, cs, rfl, hlab.1, ?_, ?_⟩
          · rw [List.all_eq_true]
            intro a ha
            have hmem : a ∈ l.takeWhile isLabelChar := by
              rw [hrun]
              exact List.mem_cons_of_mem _ ha
            exact List.mem_takeWhile_imp hmem
          · rcases Bool.or_eq_true_iff.mp hlab.2 with h61 | h62
            · exact Or.inl (of_decide_eq_true h61)
            · rw [Bool.and_eq_true] at h62
              refine Or.inr ⟨by simpa using h62.1, ?_⟩
              cases hg : cs.getLast? with
              | none =>
                rw [hg] at h62
                simp at h62
              | some d =>
                rw [hg] at h62
                refine ⟨d, rfl, ?_⟩
                simpa using h62.2
        · exact of_decide_eq_true hlen2
        · rw [List.all_eq_true]
          intro a ha
          exact List.mem_takeWhile_imp ha
        · cases hr3 : rest2.dropWhile Char.isAlpha with
          | nil => exact Or.inl rfl
          | cons c2 q =>
            rw [hr3] at hmatch
            dsimp only at hmatch
            rw [Bool.and_eq_true, Bool.and_eq_true] at hmatch
            have hc2 : c2 = '/' := by simpa using hmatch.1.2
            subst hc2
            exact Or.inr ⟨q, rfl, hmatch.2⟩
  · rintro ⟨label, tld, path, hl, ⟨c, cs, hlabel, hc, hcs, hlen⟩, htl, hta, hpath⟩
    subst hlabel
    subst hl
    have hall1 : ∀ a ∈ (c :: cs), isLabelChar a = true := by
      intro a ha
      rcases List.mem_cons.mp ha with rfl | ha
      · exact isLabelChar_of_isAlphanum hc
      · exact List.all_eq_true.mp hcs a ha
    have htake : ((c :: cs) ++ '.' :: (tld ++ path)).takeWhile isLabelChar = c :: cs := by
      rw [List.takeWhile_append_of_pos hall1,
        List.takeWhile_cons_of_neg (by decide : ¬(isLabelChar '.' = true)),
        List.append_nil]
    have hdrop : ((c :: cs) ++ '.' :: (tld ++ path)).dropWhile isLabelChar
        = '.' :: (tld ++ path) := by
      rw [List.dropWhile_append_of_pos hall1,
        List.dropWhile_cons_of_neg (by decide : ¬(isLabelChar '.' = true))]
    refine Bool.or_eq_true_iff.mpr (Or.inr ?_)
    unfold urlPatternTest
    rw [Bool.and_eq_true, htake, hdrop]
    constructor
    · simp only [labelOk]
      rw [Bool.and_eq_true]
      refine ⟨hc, ?_⟩
      rcases hlen with h61 | ⟨h62, d, hg, hd⟩
      · exact Bool.or_eq_true_iff.mpr (Or.inl (decide_eq_true h61))
      · refine Bool.or_eq_true_iff.mpr (Or.inr ?_)
        rw [Bool.and_eq_true]
        exact ⟨by simp [h62], by rw [hg]; simpa using hd⟩
    · simp only [tldSuffixOk]
      rw [Bool.and_eq_true]
      refine ⟨by decide, ?_⟩
      have htld : (tld ++ path).takeWhile Char.isAlpha = tld := by
        rw [List.takeWhile_append_of_pos (List.all_eq_true.mp hta)]
        rcases hpath with rfl | ⟨q, rfl, -⟩
        · simp
        · rw [List.takeWhile_cons_of_neg (by decide : ¬(Char.isAlpha '/' = true)),
            List.append_nil]
      have hdrop3 : (tld ++ path).dropWhile Char.isAlpha = path := by
        rw [List.dropWhile_append_of_pos (List.all_eq_true.mp hta)]
        rcases hpath with rfl | ⟨q, rfl, -⟩
        · rfl
        · rw [List.dropWhile_cons_of_neg (by decide : ¬(Char.isAlpha '/' = true))]
      rw [Bool.and_eq_true, htld, hdrop3]
      refine ⟨decide_eq_true htl, ?_⟩
      rcases hpath with rfl | ⟨q, rfl, hq⟩
      · rfl
      · simp [hq]

/-- C3 (amended): `isValidUrl` rejects empty and whitespace-only input,
accepts text whose trimmed form parses as a URL, and otherwise — when only
`https://` plus the trimmed text parses — accepts exactly the strings of the
form label `.` tld (with an optional `/...` path): one alphanumeric-headed
label of at most 63 label characters followed by a top-level label of at
least 2 letters. Multi-label domains such as `sub.example.com` therefore do
not validate; the claimed concrete values hold. -/
theorem C3_isValidUrl_pattern_spec :
    (∀ l : List Char, (domainPatternTest l || urlPatternTest l) = true ↔
      ∃ label tld path : List Char,
        l = label ++ '.' :: (tld ++ path) ∧
        (∃ c cs, label = c :: cs ∧ c.isAlphanum = true ∧ cs.all isLabelChar = true ∧
          (cs.length ≤ 61 ∨ (cs.length = 62 ∧
            ∃ d, cs.getLast? = some d ∧ d.isAlphanum = true))) ∧
        2 ≤ tld.length ∧ tld.all Char.isAlpha = true ∧
        (path = [] ∨ ∃ q, path = '/' :: q ∧ q.all isRegexDot = true)) ∧
    (∀ text : String, isValidUrl text = true ↔
      (jsTrim text ≠ "" ∧
        (urlCanParse (jsTrim text) = true ∨
          (urlCanParse ("https://" ++ jsTrim text) = true ∧
            (domainPatternTest (jsTrim text).data ||
              urlPatternTest (jsTrim text).data) = true)))) ∧
    isValidUrl "" = false ∧
    isValidUrl "not a url!!" = false ∧
    isValidUrl "google.com" = true ∧
    isValidUrl "https://a.b/c" = true ∧
    isValidUrl "sub.example.com" = false := by
  refine ⟨patternOr_iff, ?_, by decide, by decide, by decide, by decide, by decide⟩
  intro text
  constructor
  · intro h
    rw [isValidUrl] at h
    by_cases h0 : (text == "" || jsTrim text == "") = true
    · rw [if_pos h0] at h
      exact absurd h (by simp)
    · rw [if_neg h0] at h
      have hne : jsTrim text ≠ "" := fun he => h0 (by simp [he])
      refine ⟨hne, ?_⟩
      by_cases hp : urlCanParse (jsTrim text) = true
      · exact Or.inl hp
      · have hp' : urlCanParse (jsTrim text) = false := by simpa using hp
        by_cases hps : urlCanParse ("https://" ++ jsTrim text) = true
        · simp only [hp', hps, Bool.false_eq_true, if_false, if_true] at h
          exact Or.inr ⟨hps, h⟩
        · have hps' : urlCanParse ("https://" ++ jsTrim text) = false := by simpa using hps
          simp [hp', hps'] at h
  · rintro ⟨hne, hcase⟩
    rw [isValidUrl]
    have h0 : ¬((text == "" || jsTrim text == "") = true) := by
      intro hcontra
      rcases Bool.or_eq_true_iff.mp hcontra with h1 | h2
      · have h1' : text = "" := by simpa using h1
        apply hne
        rw [h1']
        decide
      · exact hne (by simpa using h2)
    rw [if_neg h0]
    by_cases hp : urlCanParse (jsTrim text) = true
    · simp [hp]
    · have hp' : urlCanParse (jsTrim text) = false := by simpa using hp
      rcases hcase with hpc | ⟨hps, hpat⟩
      · exact absurd hpc hp
      · simp [hp', hps, hpat]

/-- Counterexample to C3 as stated: the multi-label domain
`"sub.example.com"` (which the browser URL constructor accepts after the
`https://` retry) does not validate — `isValidUrl` returns false on it. -/
theorem C3_isValidUrl_pattern_counterexample :
    urlCanParse "https://sub.example.com" = true ∧
    isValidUrl "sub.example.com" = false :=
  ⟨by decide, by decide⟩


end QrArt
